import Mathlib

/-!
Verification of the OptiFork evaluation core.

This file gives a shallow embedding, in Lean, of the evaluation logic of the
OptiFork feature-flag / A-B-testing backend, and proves (or refutes) the
specification claims about it.  The embedded functions are translated from:

  - backend/main.py        : evaluate_rules, evaluate_flag (route handler)
  - backend/crud.py        : evaluate_segment_condition, evaluate_user_segment,
                             get_flag_segments, find_matching_segments,
                             parse_config_value
  - backend/experiments/crud.py : evaluate_flag_rules, assign_user_to_variant

Machine floats of the Python source are modelled as rationals; Python integers
as Int/Nat.  The database read model (SQLAlchemy queries) is modelled as
explicit lists of rows, with SELECT ... WHERE as List.filter / List.find? and
ORDER BY priority DESC as a stable merge sort.
-/

namespace OptiFork

/-! ## SHA-256
Model of hashlib.sha256: the Python code computes
  int(hashlib.sha256(user_id.encode()).hexdigest(), 16)
i.e. the 256-bit digest read as a big-endian unsigned integer.
All 32-bit words are Nats kept below 2^32. -/

namespace SHA256

def M32 : Nat := 2 ^ 32

def add32 (a b : Nat) : Nat := (a + b) % M32

/-- Right rotation of a 32-bit word (input assumed below 2^32). -/
def rotr (n x : Nat) : Nat := (x >>> n) ||| ((x <<< (32 - n)) % M32)

def shr (n x : Nat) : Nat := x >>> n

/-- Bitwise complement within 32 bits. -/
def not32 (x : Nat) : Nat := x ^^^ (M32 - 1)

def ch (x y z : Nat) : Nat := (x &&& y) ^^^ (not32 x &&& z)

def maj (x y z : Nat) : Nat := (x &&& y) ^^^ (x &&& z) ^^^ (y &&& z)

def bigSigma0 (x : Nat) : Nat := rotr 2 x ^^^ rotr 13 x ^^^ rotr 22 x

def bigSigma1 (x : Nat) : Nat := rotr 6 x ^^^ rotr 11 x ^^^ rotr 25 x

def smallSigma0 (x : Nat) : Nat := rotr 7 x ^^^ rotr 18 x ^^^ shr 3 x

def smallSigma1 (x : Nat) : Nat := rotr 17 x ^^^ rotr 19 x ^^^ shr 10 x

/-- The 64 SHA-256 round constants of FIPS 180-4, written in decimal. -/
def roundK : List Nat :=
  [1116352408, 1899447441, 3049323471, 3921009573, 961987163, 1508970993,
   2453635748, 2870763221, 3624381080, 310598401, 607225278, 1426881987,
   1925078388, 2162078206, 2614888103, 3248222580, 3835390401, 4022224774,
   264347078, 604807628, 770255983, 1249150122, 1555081692, 1996064986,
   2554220882, 2821834349, 2952996808, 3210313671, 3336571891, 3584528711,
   113926993, 338241895, 666307205, 773529912, 1294757372, 1396182291,
   1695183700, 1986661051, 2177026350, 2456956037, 2730485921, 2820302411,
   3259730800, 3345764771, 3516065817, 3600352804, 4094571909, 275423344,
   430227734, 506948616, 659060556, 883997877, 958139571, 1322822218,
   1537002063, 1747873779, 1955562222, 2024104815, 2227730452, 2361852424,
   2428436474, 2756734187, 3204031479, 3329325298]

/-- The initial hash state of FIPS 180-4, written in decimal. -/
def initH : List Nat :=
  [1779033703, 3144134277, 1013904242, 2773480762,
   1359893119, 2600822924, 528734635, 1541459225]

/-- SHA-256 padding of a byte string: append 0x80, zeros to 56 mod 64,
then the bit length as an 8-byte big-endian integer. -/
def pad (msg : List Nat) : List Nat :=
  let len := msg.length
  let zeros := (64 + 55 - len % 64) % 64
  let bitLen := 8 * len
  msg ++ 0x80 :: List.replicate zeros 0 ++
    (List.range 8).map (fun i => (bitLen >>> (8 * (7 - i))) &&& 255)

/-- Group bytes into big-endian 32-bit words. -/
def toWords : List Nat → List Nat
  | b0 :: b1 :: b2 :: b3 :: rest => (((b0 * 256 + b1) * 256 + b2) * 256 + b3) :: toWords rest
  | _ => []

/-- Split a word list into chunks of 16 (the padded input is a multiple of 16 words). -/
def chunk16 (ws : List Nat) : List (List Nat) :=
  match ws with
  | [] => []
  | w :: rest => (w :: rest).take 16 :: chunk16 ((w :: rest).drop 16)
termination_by ws.length
decreasing_by simp [List.length_drop]; omega

/-- Extend the 16 message words of one block to the 64-word message schedule. -/
def schedule (block : List Nat) : Array Nat :=
  (List.range 48).foldl
    (fun w j =>
      let i := j + 16
      w.push (add32 (add32 (smallSigma1 (w.getD (i - 2) 0)) (w.getD (i - 7) 0))
                    (add32 (smallSigma0 (w.getD (i - 15) 0)) (w.getD (i - 16) 0))))
    block.toArray

/-- One compression round. State is the tuple (a, b, c, d, e, f, g, h). -/
def round (w : Array Nat) (s : Nat × Nat × Nat × Nat × Nat × Nat × Nat × Nat) (i : Nat) :
    Nat × Nat × Nat × Nat × Nat × Nat × Nat × Nat :=
  match s with
  | (a, b, c, d, e, f, g, h) =>
    let t1 := add32 h (add32 (bigSigma1 e) (add32 (ch e f g) (add32 (roundK.getD i 0) (w.getD i 0))))
    let t2 := add32 (bigSigma0 a) (maj a b c)
    (add32 t1 t2, a, b, c, add32 d t1, e, f, g)

/-- Compress one 16-word block into the running hash state. -/
def compress (hs : List Nat) (block : List Nat) : List Nat :=
  let w := schedule block
  let init := (hs.getD 0 0, hs.getD 1 0, hs.getD 2 0, hs.getD 3 0,
               hs.getD 4 0, hs.getD 5 0, hs.getD 6 0, hs.getD 7 0)
  match (List.range 64).foldl (round w) init with
  | (a, b, c, d, e, f, g, h) =>
    [add32 (hs.getD 0 0) a, add32 (hs.getD 1 0) b, add32 (hs.getD 2 0) c,
     add32 (hs.getD 3 0) d, add32 (hs.getD 4 0) e, add32 (hs.getD 5 0) f,
     add32 (hs.getD 6 0) g, add32 (hs.getD 7 0) h]

/-- SHA-256 digest of a byte string, read as a big-endian 256-bit integer,
matching int(hashlib.sha256(data).hexdigest(), 16). -/
def sha256 (msg : List Nat) : Nat :=
  ((chunk16 (toWords (pad msg))).foldl compress initH).foldl (fun acc x => acc * M32 + x) 0

end SHA256

/-- UTF-8 encoding of one character (model of Python str.encode for one code point). -/
def utf8EncodeChar (c : Char) : List Nat :=
  let n := c.toNat
  if n < 0x80 then [n]
  else if n < 0x800 then [0xC0 ||| (n >>> 6), 0x80 ||| (n &&& 0x3F)]
  else if n < 0x10000 then
    [0xE0 ||| (n >>> 12), 0x80 ||| ((n >>> 6) &&& 0x3F), 0x80 ||| (n &&& 0x3F)]
  else
    [0xF0 ||| (n >>> 18), 0x80 ||| ((n >>> 12) &&& 0x3F),
     0x80 ||| ((n >>> 6) &&& 0x3F), 0x80 ||| (n &&& 0x3F)]

/-- UTF-8 bytes of a string (Python user_id.encode()). -/
def utf8Bytes (s : String) : List Nat := s.data.flatMap utf8EncodeChar

/-- The modulus-based bucketer of backend/main.py (evaluate_flag, lines 224-225 and 246-247):
hash_val = int(sha256(user_id.encode()).hexdigest(), 16); (hash_val % 10000) / 10000.0.
The float division is modelled exactly as a rational. -/
def bucketNormalized (user_id : String) : ℚ :=
  ((SHA256.sha256 (utf8Bytes user_id) % 10000 : Nat) : ℚ) / 10000

/-! ## Python value model

Segment conditions are created from JSON, so a condition's comparison value can
be a string, a number, a boolean, null, or a list.  User traits, by contrast,
always come from HTTP query parameters (dict(request.query_params) plus
user_id), so the attribute maps are string-valued throughout the program; they
are modelled as association lists with first-match lookup, which agrees with
Python dict semantics for unique keys.  Python ints and floats are modelled as
Int and exact rationals. -/

inductive PyVal where
  | str (s : String)
  | int (n : Int)
  | float (q : ℚ)
  | bool (b : Bool)
  | none
  | list (xs : List PyVal)

/-- Attribute maps (user traits / user attributes): string keys to string values. -/
abbrev Attrs := List (String × String)

/-- isinstance(v, list). -/
def PyVal.isList : PyVal → Bool
  | .list _ => true
  | _ => false

/-- Numeric view used by Python ==: bool is an int subclass (True == 1),
and int/float compare by value. -/
def pyNumVal? : PyVal → Option ℚ
  | .int n => Option.some (n : ℚ)
  | .float q => Option.some q
  | .bool b => Option.some (if b then 1 else 0)
  | _ => Option.none

mutual

/-- Python == on the modelled values: strings by content, numbers (including
bools) by numeric value, None only to None, lists elementwise; values of
unrelated types compare unequal. -/
def pyEq : PyVal → PyVal → Bool
  | .str a, .str b => a == b
  | .none, .none => true
  | .list xs, .list ys => pyEqList xs ys
  | a, b =>
    match pyNumVal? a, pyNumVal? b with
    | Option.some x, Option.some y => x == y
    | _, _ => false

def pyEqList : List PyVal → List PyVal → Bool
  | [], [] => true
  | x :: xs, y :: ys => pyEq x y && pyEqList xs ys
  | _, _ => false

end

/-- ASCII lowercasing, modelling str.lower() (Unicode case folding beyond
ASCII is not modelled; no claim depends on it). -/
def pyLower (s : String) : String := String.mk (s.data.map Char.toLower)

/-- Decimal rendering of a rational, approximating Python str() on floats:
exact decimal expansion with at least one fractional digit.  Python's
shortest-round-trip float repr is not modelled; this rendering only feeds the
string operators (contains / starts_with / ends_with) on non-string condition
operands, which no claim exercises. -/
def floatRepr (q : ℚ) : String :=
  let sign := if q < 0 then "-" else ""
  let aq : ℚ := |q|
  match (List.range 19).find? (fun k => (aq * (10 : ℚ) ^ (k + 1)).den = 1) with
  | Option.some k =>
    let ds := (toString (aq * (10 : ℚ) ^ (k + 1)).num.natAbs).data
    let ds := List.replicate (k + 2 - ds.length) '0' ++ ds
    let m := ds.length - (k + 1)
    sign ++ String.mk (ds.take m) ++ "." ++ String.mk (ds.drop m)
  | Option.none => sign ++ toString aq.num.natAbs ++ "/" ++ toString aq.den

mutual

/-- Python repr(), as used for the elements when str() renders a list.
Quote selection and escaping inside string repr are not modelled. -/
def pyRepr : PyVal → String
  | .str s => "'" ++ s ++ "'"
  | .int n => toString n
  | .float q => floatRepr q
  | .bool true => "True"
  | .bool false => "False"
  | .none => "None"
  | .list xs => "[" ++ pyReprList xs ++ "]"

def pyReprList : List PyVal → String
  | [] => ""
  | [v] => pyRepr v
  | v :: w :: rest => pyRepr v ++ ", " ++ pyReprList (w :: rest)

end

/-- Python str() on the modelled values. -/
def pyStr : PyVal → String
  | .str s => s
  | .int n => toString n
  | .float q => floatRepr q
  | .bool true => "True"
  | .bool false => "False"
  | .none => "None"
  | .list xs => "[" ++ pyReprList xs ++ "]"

/-! ## Python numeric string parsing (int(s) and float(s)) -/

/-- Whitespace stripped by Python int()/float() (ASCII subset; Unicode
whitespace and underscore digit grouping are not modelled). -/
def isPyWs (c : Char) : Bool :=
  c = ' ' || c = '\t' || c = '\n' || c = '\r' || c = '\x0b' || c = '\x0c'

def stripWs (cs : List Char) : List Char :=
  ((cs.dropWhile isPyWs).reverse.dropWhile isPyWs).reverse

def digitsVal (cs : List Char) : Nat :=
  cs.foldl (fun a c => a * 10 + (c.toNat - 48)) 0

def parseDigits? (cs : List Char) : Option Nat :=
  if cs.isEmpty || !cs.all Char.isDigit then Option.none else Option.some (digitsVal cs)

/-- Model of Python int(s) on strings: optional surrounding whitespace,
optional sign, decimal digits; anything else raises ValueError (none). -/
def pyInt? (s : String) : Option Int :=
  match stripWs s.data with
  | '+' :: rest => (parseDigits? rest).map (fun n => (n : Int))
  | '-' :: rest => (parseDigits? rest).map (fun n => -(n : Int))
  | cs => (parseDigits? cs).map (fun n => (n : Int))

/-- Exponent suffix of a float literal: optional sign then digits. -/
def pyExp? (cs : List Char) : Option Int :=
  match cs with
  | '+' :: rest => (parseDigits? rest).map (fun n => (n : Int))
  | '-' :: rest => (parseDigits? rest).map (fun n => -(n : Int))
  | rest => (parseDigits? rest).map (fun n => (n : Int))

/-- Unsigned part of Python float(s): digits, digits.digits, .digits, digits.,
each with an optional e/E exponent. -/
def pyFloatMag? (cs : List Char) : Option ℚ :=
  let ip := cs.takeWhile Char.isDigit
  let rest1 := cs.dropWhile Char.isDigit
  match rest1 with
  | [] => if ip.isEmpty then Option.none else Option.some ((digitsVal ip : ℚ))
  | '.' :: rest2 =>
    let fp := rest2.takeWhile Char.isDigit
    let rest3 := rest2.dropWhile Char.isDigit
    if ip.isEmpty && fp.isEmpty then Option.none
    else
      let mant : ℚ := (digitsVal ip : ℚ) + (digitsVal fp : ℚ) / (10 : ℚ) ^ fp.length
      match rest3 with
      | [] => Option.some mant
      | e :: rest4 =>
        if e = 'e' || e = 'E' then (pyExp? rest4).map (fun k => mant * (10 : ℚ) ^ (k : ℤ))
        else Option.none
  | e :: rest2 =>
    if (e = 'e' || e = 'E') && !ip.isEmpty then
      (pyExp? rest2).map (fun k => (digitsVal ip : ℚ) * (10 : ℚ) ^ (k : ℤ))
    else Option.none

/-- Model of Python float(s) on strings, as an exact rational (binary float
rounding is not modelled; the claims proved here are insensitive to it).
The inf/infinity/nan spellings have no rational value and are not modelled. -/
def pyFloat? (s : String) : Option ℚ :=
  match stripWs s.data with
  | '+' :: rest => pyFloatMag? rest
  | '-' :: rest => (pyFloatMag? rest).map Neg.neg
  | cs => pyFloatMag? cs

/-- float(x) as applied by the numeric condition operators to the condition's
comparison value: numbers and bools coerce, strings parse, anything else
raises TypeError (none). -/
def pyFloatOf? : PyVal → Option ℚ
  | .str s => pyFloat? s
  | .int n => Option.some (n : ℚ)
  | .float q => Option.some q
  | .bool b => Option.some (if b then 1 else 0)
  | _ => Option.none

/-! ## JSON decoding (model of json.loads, used by parse_config_value) -/

inductive Json where
  | null
  | bool (b : Bool)
  | num (q : ℚ)
  | str (s : String)
  | arr (elems : List Json)
  | obj (fields : List (String × Json))

/-- JSON insignificant whitespace. -/
def jsonWs (cs : List Char) : List Char :=
  cs.dropWhile (fun c => c = ' ' || c = '\t' || c = '\n' || c = '\r')

def hexVal? (c : Char) : Option Nat :=
  if c.isDigit then Option.some (c.toNat - 48)
  else if 'a' ≤ c && c ≤ 'f' then Option.some (c.toNat - 87)
  else if 'A' ≤ c && c ≤ 'F' then Option.some (c.toNat - 55)
  else Option.none

/-- Parse the body of a JSON string after the opening quote; returns the
content and the input after the closing quote.  Surrogate-pair combination of
consecutive escapes is not modelled (no claim depends on it). -/
def parseJsonStr : List Char → Option (List Char × List Char)
  | '"' :: rest => Option.some ([], rest)
  | '\\' :: '"' :: rest => (parseJsonStr rest).map (fun p => ('"' :: p.1, p.2))
  | '\\' :: '\\' :: rest => (parseJsonStr rest).map (fun p => ('\\' :: p.1, p.2))
  | '\\' :: '/' :: rest => (parseJsonStr rest).map (fun p => ('/' :: p.1, p.2))
  | '\\' :: 'b' :: rest => (parseJsonStr rest).map (fun p => ('\x08' :: p.1, p.2))
  | '\\' :: 'f' :: rest => (parseJsonStr rest).map (fun p => ('\x0c' :: p.1, p.2))
  | '\\' :: 'n' :: rest => (parseJsonStr rest).map (fun p => ('\n' :: p.1, p.2))
  | '\\' :: 'r' :: rest => (parseJsonStr rest).map (fun p => ('\x0d' :: p.1, p.2))
  | '\\' :: 't' :: rest => (parseJsonStr rest).map (fun p => ('\t' :: p.1, p.2))
  | '\\' :: 'u' :: h1 :: h2 :: h3 :: h4 :: rest =>
    (match hexVal? h1, hexVal? h2, hexVal? h3, hexVal? h4 with
     | Option.some a, Option.some b, Option.some c, Option.some d =>
       (parseJsonStr rest).map (fun p => (Char.ofNat (((a * 16 + b) * 16 + c) * 16 + d) :: p.1, p.2))
     | _, _, _, _ => Option.none)
  | '\\' :: _ => Option.none
  | c :: rest =>
    if c.toNat < 0x20 then Option.none
    else (parseJsonStr rest).map (fun p => (c :: p.1, p.2))
  | [] => Option.none

/-- Optional exponent part of a JSON number applied to a parsed mantissa. -/
def parseJsonExpOpt (mant : ℚ) (cs : List Char) : Option (ℚ × List Char) :=
  match cs with
  | 'e' :: rest | 'E' :: rest =>
    let (esign, rest1) : Int × List Char :=
      match rest with
      | '+' :: r => (1, r)
      | '-' :: r => (-1, r)
      | r => (1, r)
    let ds := rest1.takeWhile Char.isDigit
    if ds.isEmpty then Option.none
    else Option.some (mant * (10 : ℚ) ^ (esign * (digitsVal ds : Int)), rest1.dropWhile Char.isDigit)
  | _ => Option.some (mant, cs)

/-- JSON number grammar: -? (0 | [1-9][0-9]*) (. [0-9]+)? ([eE][+-]?[0-9]+)?.
Python json.loads yields int for integer literals and float otherwise; both
are collapsed into a rational here. -/
def parseJsonNum : List Char → Option (ℚ × List Char) := fun cs =>
  let (sgn, cs1) : ℚ × List Char :=
    match cs with
    | '-' :: r => (-1, r)
    | r => (1, r)
  let ip := cs1.takeWhile Char.isDigit
  if ip.isEmpty then Option.none
  else if 1 < ip.length && ip.headD '0' = '0' then Option.none
  else
    let rest1 := cs1.dropWhile Char.isDigit
    let intVal : ℚ := (digitsVal ip : ℚ)
    match rest1 with
    | '.' :: rest2 =>
      let fp := rest2.takeWhile Char.isDigit
      if fp.isEmpty then Option.none
      else
        let mant := intVal + (digitsVal fp : ℚ) / (10 : ℚ) ^ fp.length
        (parseJsonExpOpt mant (rest2.dropWhile Char.isDigit)).map (fun p => (sgn * p.1, p.2))
    | _ => (parseJsonExpOpt intVal rest1).map (fun p => (sgn * p.1, p.2))

mutual

/-- Recursive-descent JSON value parser; the fuel bounds nesting depth. -/
def parseJsonValue : Nat → List Char → Option (Json × List Char)
  | 0, _ => Option.none
  | fuel + 1, cs =>
    match jsonWs cs with
    | 'n' :: 'u' :: 'l' :: 'l' :: rest => Option.some (.null, rest)
    | 't' :: 'r' :: 'u' :: 'e' :: rest => Option.some (.bool true, rest)
    | 'f' :: 'a' :: 'l' :: 's' :: 'e' :: rest => Option.some (.bool false, rest)
    | '"' :: rest => (parseJsonStr rest).map (fun p => (.str (String.mk p.1), p.2))
    | '[' :: rest =>
      (match jsonWs rest with
       | ']' :: r => Option.some (.arr [], r)
       | cs2 => (parseJsonElems fuel cs2).map (fun p => (.arr p.1, p.2)))
    | '\x7b' :: rest =>
      (match jsonWs rest with
       | '\x7d' :: r => Option.some (.obj [], r)
       | cs2 => (parseJsonMembers fuel cs2).map (fun p => (.obj p.1, p.2)))
    | cs2 => (parseJsonNum cs2).map (fun p => (.num p.1, p.2))

/-- One-or-more comma-separated array elements up to the closing bracket. -/
def parseJsonElems : Nat → List Char → Option (List Json × List Char)
  | 0, _ => Option.none
  | fuel + 1, cs =>
    (parseJsonValue (fuel + 1) cs).bind (fun p =>
      match jsonWs p.2 with
      | ',' :: r2 => (parseJsonElems fuel r2).map (fun q => (p.1 :: q.1, q.2))
      | ']' :: r2 => Option.some ([p.1], r2)
      | _ => Option.none)

/-- One-or-more comma-separated object members up to the closing brace.
Python dict semantics would keep only the last duplicate key; members are kept
in order here (no claim depends on duplicates). -/
def parseJsonMembers : Nat → List Char → Option (List (String × Json) × List Char)
  | 0, _ => Option.none
  | fuel + 1, cs =>
    match jsonWs cs with
    | '"' :: rest =>
      (parseJsonStr rest).bind (fun kp =>
        match jsonWs kp.2 with
        | ':' :: r2 =>
          (parseJsonValue (fuel + 1) r2).bind (fun vp =>
            match jsonWs vp.2 with
            | ',' :: r4 => (parseJsonMembers fuel r4).map (fun q => ((String.mk kp.1, vp.1) :: q.1, q.2))
            | '\x7d' :: r4 => Option.some ([(String.mk kp.1, vp.1)], r4)
            | _ => Option.none)
        | _ => Option.none)
    | _ => Option.none

end

/-- Model of json.loads(s): parse one JSON value and require only whitespace
to remain.  The fuel is adequate because every recursion step consumes input. -/
def json_loads? (s : String) : Option Json :=
  match parseJsonValue (s.length + 1) s.data with
  | Option.some (v, rest) => if (jsonWs rest).isEmpty then Option.some v else Option.none
  | Option.none => Option.none

/-! ## Typed config value parsing (backend/crud.py, parse_config_value, lines 398-420) -/

/-- The result of parse_config_value: Python returns str, int, float, bool or
a decoded JSON structure. -/
inductive ConfigValue where
  | str (s : String)
  | int (n : Int)
  | float (q : ℚ)
  | bool (b : Bool)
  | json (j : Json)

def parse_config_value (value : String) (value_type : String) : ConfigValue :=
  if value_type = "string" then .str value
  else if value_type = "number" then
    -- try: float(value) if "." in value else int(value); except ValueError: value
    -- (the single-character substring test "." in value is char containment)
    if value.data.contains '.' then
      match pyFloat? value with
      | Option.some q => .float q
      | Option.none => .str value
    else
      match pyInt? value with
      | Option.some n => .int n
      | Option.none => .str value
  else if value_type = "boolean" then
    .bool (["true", "1", "yes", "on"].contains (pyLower value))
  else if value_type = "json" then
    match json_loads? value with
    | Option.some j => .json j
    | Option.none => .str value
  else .str value

/-! ## Data model (backend/models.py, backend/experiments/models.py)

The SQLAlchemy read model is embedded as explicit lists of rows:
SELECT ... WHERE becomes List.filter / List.find? (first() returns the first
matching row in list order) and ORDER BY priority DESC becomes a stable merge
sort.  Float columns are rationals; Integer ids are Nats. -/

/-- A legacy flag rule row (table rules: field, op, value are String columns). -/
structure Rule where
  field : String
  op : String
  value : String
deriving DecidableEq

/-- A feature flag row with its eager-loaded rules. -/
structure FeatureFlag where
  id : Nat
  name : String
  rollout : ℚ
  rules : List Rule
deriving DecidableEq

/-- A segment condition, stored as JSON on the user_segments row. -/
structure SegmentCondition where
  field : String
  operator : String
  value : PyVal

/-- A user segment row (conditions JSON column). -/
structure UserSegment where
  id : Nat
  name : String
  conditions : List SegmentCondition

/-- A flag-segment association row. -/
structure FlagSegment where
  flag_id : Nat
  segment_id : Nat
  enabled : Bool
  rollout_percentage : ℚ
  priority : Int
deriving DecidableEq

/-- An experiment row (flag_id is a nullable foreign key used as an
eligibility gate). -/
structure Experiment where
  id : Nat
  name : String
  status : String
  flag_id : Option Nat
deriving DecidableEq

/-- A variant row. -/
structure Variant where
  id : Nat
  experiment_id : Nat
  name : String
  traffic_split : ℚ
deriving DecidableEq

/-- A sticky assignment row (table user_assignments). -/
structure UserAssignment where
  experiment_id : Nat
  variant_id : Nat
  user_id : String
deriving DecidableEq

/-! ## Segment predicate evaluation (backend/crud.py lines 208-284) -/

/-- Substring test: needle occurs contiguously in hay (Python s1 in s2). -/
def isSubstring (needle hay : List Char) : Bool :=
  hay.tails.any (fun t => needle.isPrefixOf t)

/-- evaluate_segment_condition (crud.py lines 208-256): one condition against
the user traits.  Traits are string-valued (they come from query parameters);
the condition value comes from JSON.  A missing field returns False before any
operator dispatch; an unrecognized operator falls through to False. -/
def evaluate_segment_condition (user_traits : Attrs) (condition : SegmentCondition) : Bool :=
  match user_traits.lookup condition.field with
  | Option.none => false
  | Option.some actual_value =>
    if condition.operator = "equals" then pyEq (.str actual_value) condition.value
    else if condition.operator = "not_equals" then !pyEq (.str actual_value) condition.value
    else if condition.operator = "contains" then
      isSubstring (pyLower (pyStr condition.value)).data (pyLower actual_value).data
    else if condition.operator = "not_contains" then
      !isSubstring (pyLower (pyStr condition.value)).data (pyLower actual_value).data
    else if condition.operator = "in" then
      match condition.value with
      | .list xs => xs.any (fun x => pyEq (.str actual_value) x)
      | _ => false
    else if condition.operator = "not_in" then
      match condition.value with
      | .list xs => !xs.any (fun x => pyEq (.str actual_value) x)
      | _ => true
    else if condition.operator = "greater_than" then
      match pyFloat? actual_value, pyFloatOf? condition.value with
      | Option.some a, Option.some b => decide (b < a)
      | _, _ => false
    else if condition.operator = "less_than" then
      match pyFloat? actual_value, pyFloatOf? condition.value with
      | Option.some a, Option.some b => decide (a < b)
      | _, _ => false
    else if condition.operator = "greater_than_or_equal" then
      match pyFloat? actual_value, pyFloatOf? condition.value with
      | Option.some a, Option.some b => decide (b ≤ a)
      | _, _ => false
    else if condition.operator = "less_than_or_equal" then
      match pyFloat? actual_value, pyFloatOf? condition.value with
      | Option.some a, Option.some b => decide (a ≤ b)
      | _, _ => false
    else if condition.operator = "starts_with" then
      (pyLower (pyStr condition.value)).data.isPrefixOf (pyLower actual_value).data
    else if condition.operator = "ends_with" then
      (pyLower (pyStr condition.value)).data.isSuffixOf (pyLower actual_value).data
    else false

/-- evaluate_user_segment (crud.py lines 258-273): resolve the segment by id
(False when absent); an empty condition list matches everyone; otherwise the
conditions are AND-ed with short-circuiting, which List.all implements. -/
def evaluate_user_segment (segments : List UserSegment) (segment_id : Nat)
    (user_traits : Attrs) : Bool :=
  match segments.find? (fun s => s.id == segment_id) with
  | Option.none => false
  | Option.some segment =>
    segment.conditions.all (fun c => evaluate_segment_condition user_traits c)

/-- Insert a row into a priority-descending list: it lands after the rows of
strictly greater priority and before those of smaller or equal priority, so
an earlier row inserted later stays ahead of equal-priority rows. -/
def insertByPriority (fs : FlagSegment) : List FlagSegment → List FlagSegment
  | [] => [fs]
  | g :: rest =>
    if g.priority ≤ fs.priority then fs :: g :: rest
    else g :: insertByPriority fs rest

/-- Stable sort by priority descending: rows keep their relative order within
equal priorities. -/
def sortByPriorityDesc : List FlagSegment → List FlagSegment
  | [] => []
  | fs :: rest => insertByPriority fs (sortByPriorityDesc rest)

/-- get_flag_segments (crud.py lines 196-204): SELECT the flag's association
rows ORDER BY priority DESC, modelled as a stable descending sort of the row
list (the spec relies on stability for equal priorities). -/
def get_flag_segments (flag_segments : List FlagSegment) (flag_id : Nat) : List FlagSegment :=
  sortByPriorityDesc (flag_segments.filter (fun fs => fs.flag_id == flag_id))

/-- find_matching_segments (crud.py lines 275-284): keep the enabled
associations whose segment matches the user, preserving the priority order. -/
def find_matching_segments (flag_segments : List FlagSegment) (segments : List UserSegment)
    (flag_id : Nat) (user_traits : Attrs) : List FlagSegment :=
  (get_flag_segments flag_segments flag_id).filter
    (fun fs => fs.enabled && evaluate_user_segment segments fs.segment_id user_traits)

/-! ## Flag evaluation (backend/main.py lines 188-253) -/

/-- evaluate_rules (main.py lines 188-201): OR semantics over the legacy
rules; a rule whose field is absent from the attributes is skipped; operators
eq, ne, gt, lt compare the query-parameter string against the rule's value
column (Python compares str with str, lexicographically for gt/lt); any match
short-circuits to True; no match at all yields False. -/
def evaluate_rules : List Rule → Attrs → Bool
  | [], _ => false
  | rule :: rest, user_attrs =>
    match user_attrs.lookup rule.field with
    | Option.none => evaluate_rules rest user_attrs
    | Option.some field_val =>
      if rule.op = "eq" then
        if field_val = rule.value then true else evaluate_rules rest user_attrs
      else if rule.op = "ne" then
        if field_val ≠ rule.value then true else evaluate_rules rest user_attrs
      else if rule.op = "gt" then
        if rule.value < field_val then true else evaluate_rules rest user_attrs
      else if rule.op = "lt" then
        if field_val < rule.value then true else evaluate_rules rest user_attrs
      else evaluate_rules rest user_attrs

/-- The observable outcome of the evaluate_flag route: the enabled boolean of
the response, and the segment id written to the FlagExposure row (none on the
non-segment paths). -/
structure FlagEvalResult where
  enabled : Bool
  segment_id : Option Nat
deriving DecidableEq

/-- evaluate_flag (main.py lines 204-253).  user_attrs is
dict(request.query_params) with user_id inserted (modelled by prepending,
since lookup takes the first binding).  Priority order: segment override with
its own rollout_percentage, else legacy rule gate, else base rollout. -/
def evaluate_flag (flag : FeatureFlag) (flag_segments : List FlagSegment)
    (segments : List UserSegment) (user_id : String) (query_params : Attrs) : FlagEvalResult :=
  let user_attrs : Attrs := ("user_id", user_id) :: query_params
  match find_matching_segments flag_segments segments flag.id user_attrs with
  | selected_segment :: _ =>
    let normalized := bucketNormalized user_id
    { enabled := decide (normalized < selected_segment.rollout_percentage / 100),
      segment_id := Option.some selected_segment.segment_id }
  | [] =>
    if flag.rules ≠ [] ∧ evaluate_rules flag.rules user_attrs = false then
      { enabled := false, segment_id := Option.none }
    else
      let normalized := bucketNormalized user_id
      { enabled := decide (normalized < flag.rollout), segment_id := Option.none }

/-! ## Experiment assignment (backend/experiments/crud.py lines 48-113, 188-203) -/

/-- getattr(rule, "field", None) or getattr(rule, "attribute", None): the Rule
model has no attribute column, so the second getattr yields None, and an empty
(falsy) field string also degrades to None. -/
def ruleAttrName (r : Rule) : Option String :=
  if r.field = "" then Option.none else Option.some r.field

/-- getattr(rule, "op", None) or getattr(rule, "operator", None), with the
same falsy-string degradation. -/
def ruleOpName (r : Rule) : Option String :=
  if r.op = "" then Option.none else Option.some r.op

/-- evaluate_flag_rules (experiments/crud.py lines 188-203): the experiment
eligibility gate.  AND semantics: a rule with operator "equals" fails the gate
when the attribute value differs (a missing attribute is Python None, which
differs from any string); "not_equals" fails the gate on equality; every other
operator is ignored; an empty rule list passes. -/
def evaluate_flag_rules : List Rule → Attrs → Bool
  | [], _ => true
  | rule :: rest, user_attributes =>
    let user_val : Option String :=
      match ruleAttrName rule with
      | Option.none => Option.none
      | Option.some f => user_attributes.lookup f
    if ruleOpName rule = Option.some "equals" then
      if user_val ≠ Option.some rule.value then false
      else evaluate_flag_rules rest user_attributes
    else if ruleOpName rule = Option.some "not_equals" then
      if user_val = Option.some rule.value then false
      else evaluate_flag_rules rest user_attributes
    else evaluate_flag_rules rest user_attributes

/-- Python truthiness of the nullable integer experiment.flag_id. -/
def flagIdTruthy : Option Nat → Bool
  | Option.none => false
  | Option.some n => n != 0

/-- The traffic-split walk (crud.py lines 96-104): acc accumulates the splits;
the first variant with rnd <= acc is taken; none means the loop fell through
(the caller then falls back to the last variant). -/
def pickVariant (rnd : ℚ) : ℚ → List Variant → Option Variant
  | _, [] => Option.none
  | acc, v :: rest =>
    let acc2 := acc + v.traffic_split
    if rnd ≤ acc2 then Option.some v else pickVariant rnd acc2 rest

/-- The unconditional tail of assign_user_to_variant (crud.py lines 87-113):
fetch the experiment's variants (in insertion order), return none when there
are none, otherwise draw (rnd models the fresh random.random() sample), pick
by cumulative split with last-variant fallback, and persist a new
UserAssignment row. -/
def assignDraw (variants : List Variant) (assignments : List UserAssignment)
    (experiment_id : Nat) (user_id : String) (rnd : ℚ) :
    Option Variant × List UserAssignment :=
  match variants.filter (fun v => v.experiment_id == experiment_id) with
  | [] => (Option.none, assignments)
  | v0 :: rest =>
    let vs := v0 :: rest
    let assigned := (pickVariant rnd 0 vs).getD (vs.getLast (List.cons_ne_nil v0 rest))
    (Option.some assigned,
     assignments ++ [{ experiment_id := experiment_id, variant_id := assigned.id,
                       user_id := user_id }])

/-- assign_user_to_variant (experiments/crud.py lines 48-113).  Returns none
when the experiment id is unknown (the Python then raises AttributeError on
experiment.flag_id).  NOTE: in the source, the prior-assignment lookup (lines
73-84) is indented INSIDE the `if experiment.flag_id:` block opened at line
60, so it only runs for experiments with a truthy flag_id; that scoping is
preserved faithfully here.  The result pairs the returned variant with the
user_assignments table after the call. -/
def assign_user_to_variant (experiments : List Experiment) (flags : List FeatureFlag)
    (variants : List Variant) (assignments : List UserAssignment)
    (experiment_id : Nat) (user_id : String) (user_attributes : Attrs) (rnd : ℚ) :
    Option (Option Variant × List UserAssignment) :=
  match experiments.find? (fun e => e.id == experiment_id) with
  | Option.none => Option.none
  | Option.some experiment =>
    if flagIdTruthy experiment.flag_id then
      let foundFlag := experiment.flag_id.bind (fun fid => flags.find? (fun f => f.id == fid))
      let gateBlocks :=
        match foundFlag with
        | Option.some flag => !evaluate_flag_rules flag.rules user_attributes
        | Option.none => false
      if gateBlocks then Option.some (Option.none, assignments)
      else
        match assignments.find?
            (fun a => a.experiment_id == experiment_id && a.user_id == user_id) with
        | Option.some assignment =>
          Option.some (variants.find? (fun v => v.id == assignment.variant_id), assignments)
        | Option.none =>
          Option.some (assignDraw variants assignments experiment_id user_id rnd)
    else
      Option.some (assignDraw variants assignments experiment_id user_id rnd)

/-! ## Claims -/

/-- C9: for every condition and every attribute map in which the condition's
field is absent, the predicate evaluator returns false, whatever the operator
(including the negated operators not_equals, not_contains and not_in). -/
theorem missing_field_fails_closed (user_traits : Attrs) (condition : SegmentCondition)
    (h : user_traits.lookup condition.field = Option.none) :
    evaluate_segment_condition user_traits condition = false := by
  unfold evaluate_segment_condition
  rw [h]

/-- Witness for C9: a subject with only a plan attribute, checked against a
not_in condition on the absent country field, evaluates to false. -/
theorem missing_field_fails_closed_witness :
    ([("plan", "pro")] : Attrs).lookup "country" = Option.none ∧
    evaluate_segment_condition [("plan", "pro")]
      { field := "country", operator := "not_in", value := .str "US" } = false :=
  ⟨rfl, missing_field_fails_closed _ _ rfl⟩

/-- C10: a condition whose operator is none of the twelve defined operators
evaluates to false for every attribute map, rather than raising or matching. -/
theorem unknown_operator_fails_closed (user_traits : Attrs) (condition : SegmentCondition)
    (h : condition.operator ∉ (["equals", "not_equals", "contains", "not_contains", "in",
      "not_in", "greater_than", "less_than", "greater_than_or_equal", "less_than_or_equal",
      "starts_with", "ends_with"] : List String)) :
    evaluate_segment_condition user_traits condition = false := by
  simp only [List.mem_cons, List.not_mem_nil, or_false, not_or] at h
  obtain ⟨h1, h2, h3, h4, h5, h6, h7, h8, h9, h10, h11, h12⟩ := h
  unfold evaluate_segment_condition
  cases user_traits.lookup condition.field with
  | none => rfl
  | some actual => simp [h1, h2, h3, h4, h5, h6, h7, h8, h9, h10, h11, h12]

/-- Witness for C10: the undefined operator regex_match fails closed even when
the field is present. -/
theorem unknown_operator_fails_closed_witness :
    ("regex_match" : String) ∉ (["equals", "not_equals", "contains", "not_contains", "in",
      "not_in", "greater_than", "less_than", "greater_than_or_equal", "less_than_or_equal",
      "starts_with", "ends_with"] : List String) ∧
    evaluate_segment_condition [("name", "A")]
      { field := "name", operator := "regex_match", value := .str "x" } = false :=
  ⟨by decide, unknown_operator_fails_closed _ _ (by decide)⟩

/-- C8: when the operator is in or not_in, the field is present, and the
comparison value is not a list, the evaluator returns false for in and true
for not_in. -/
theorem in_not_in_asymmetry (user_traits : Attrs) (condition : SegmentCondition)
    (hop : condition.operator = "in" ∨ condition.operator = "not_in")
    (hf : (user_traits.lookup condition.field).isSome = true)
    (hv : condition.value.isList = false) :
    evaluate_segment_condition user_traits condition = decide (condition.operator = "not_in") := by
  obtain ⟨actual, ha⟩ := Option.isSome_iff_exists.mp hf
  unfold evaluate_segment_condition
  rw [ha]
  rcases hop with h | h <;> rw [h] <;> cases hcv : condition.value <;>
    first
      | rfl
      | (rw [hcv] at hv; simp [PyVal.isList] at hv)

/-- Witness for C8: a string (non-list) comparison value with operator in and
a present field yields false. -/
theorem in_not_in_asymmetry_witness :
    evaluate_segment_condition [("plan", "pro")]
      { field := "plan", operator := "in", value := .str "pro" } =
      decide (("in" : String) = "not_in") :=
  in_not_in_asymmetry [("plan", "pro")] _ (Or.inl rfl) (by decide) (by decide)

/-- C7: config value parsing is total (the Lean model is a total function) and
follows the type table: string is identity; number yields an integer when the
text has no dot and a float otherwise, falling back to the raw string when
Python int()/float() would raise; boolean is true exactly when the lowercased
text is one of true, 1, yes, on (so Yes is true); json falls back to the raw
string on decode failure (the raw text starting with an unclosed brace stays a
string). -/
theorem parse_config_value_follows_type_table :
    (∀ v, parse_config_value v "string" = ConfigValue.str v) ∧
    (∀ v n, v.data.contains '.' = false → pyInt? v = Option.some n →
       parse_config_value v "number" = ConfigValue.int n) ∧
    (∀ v q, v.data.contains '.' = true → pyFloat? v = Option.some q →
       parse_config_value v "number" = ConfigValue.float q) ∧
    (∀ v, v.data.contains '.' = false → pyInt? v = Option.none →
       parse_config_value v "number" = ConfigValue.str v) ∧
    (∀ v, v.data.contains '.' = true → pyFloat? v = Option.none →
       parse_config_value v "number" = ConfigValue.str v) ∧
    (∀ v, parse_config_value v "boolean" = ConfigValue.bool true ↔
       pyLower v ∈ (["true", "1", "yes", "on"] : List String)) ∧
    (∀ v j, json_loads? v = Option.some j → parse_config_value v "json" = ConfigValue.json j) ∧
    (∀ v, json_loads? v = Option.none → parse_config_value v "json" = ConfigValue.str v) ∧
    parse_config_value "3.14" "number" = ConfigValue.float (314 / 100) ∧
    parse_config_value "7" "number" = ConfigValue.int 7 ∧
    parse_config_value "Yes" "boolean" = ConfigValue.bool true ∧
    parse_config_value "\x7bbad" "json" = ConfigValue.str "\x7bbad" := by
  have hnum_int : ∀ v n, v.data.contains '.' = false → pyInt? v = Option.some n →
      parse_config_value v "number" = ConfigValue.int n := by
    intro v n hdot h
    unfold parse_config_value
    rw [if_neg (by decide), if_pos rfl, hdot, if_neg (by simp), h]
  have hnum_float : ∀ v q, v.data.contains '.' = true → pyFloat? v = Option.some q →
      parse_config_value v "number" = ConfigValue.float q := by
    intro v q hdot h
    unfold parse_config_value
    rw [if_neg (by decide), if_pos rfl, hdot, if_pos rfl, h]
  have hnum_istr : ∀ v, v.data.contains '.' = false → pyInt? v = Option.none →
      parse_config_value v "number" = ConfigValue.str v := by
    intro v hdot h
    unfold parse_config_value
    rw [if_neg (by decide), if_pos rfl, hdot, if_neg (by simp), h]
  have hnum_fstr : ∀ v, v.data.contains '.' = true → pyFloat? v = Option.none →
      parse_config_value v "number" = ConfigValue.str v := by
    intro v hdot h
    unfold parse_config_value
    rw [if_neg (by decide), if_pos rfl, hdot, if_pos rfl, h]
  have hjson_ok : ∀ v j, json_loads? v = Option.some j →
      parse_config_value v "json" = ConfigValue.json j := by
    intro v j h
    unfold parse_config_value
    rw [if_neg (by decide), if_neg (by decide), if_neg (by decide), if_pos rfl, h]
  have hjson_str : ∀ v, json_loads? v = Option.none →
      parse_config_value v "json" = ConfigValue.str v := by
    intro v h
    unfold parse_config_value
    rw [if_neg (by decide), if_neg (by decide), if_neg (by decide), if_pos rfl, h]
  refine ⟨fun v => rfl, hnum_int, hnum_float, hnum_istr, hnum_fstr, ?_, hjson_ok, hjson_str,
    hnum_float "3.14" (314 / 100) rfl (by decide!), hnum_int "7" 7 rfl (by decide), rfl,
    hjson_str "\x7bbad" (Option.isNone_iff_eq_none.mp (by decide!))⟩
  intro v
  unfold parse_config_value
  rw [if_neg (by decide), if_neg (by decide), if_pos rfl]
  simp [ConfigValue.bool.injEq, List.contains]

/-- Witness for C7: the dotless numeral 42 parses through Python int() to the
integer 42. -/
theorem parse_config_value_follows_type_table_witness :
    ("42" : String).data.contains '.' = false ∧ pyInt? "42" = Option.some 42 ∧
    parse_config_value "42" "number" = ConfigValue.int 42 :=
  ⟨rfl, rfl, parse_config_value_follows_type_table.2.1 "42" 42 rfl rfl⟩

/-- C1 (code bug): in assign_user_to_variant the prior-assignment lookup is
indented inside the `if experiment.flag_id:` block, so for an experiment with
a null flag_id the sticky record is never consulted: with two variants of
traffic split one half, a first call drawing 3/10 assigns and persists variant
A, and a second call drawing 9/10 returns variant B and persists a second
UserAssignment row for the same (experiment, subject) pair, contradicting the
claim that the persisted variant is returned unconditionally. -/
theorem sticky_assignment_violated_for_ungated_experiment :
    assign_user_to_variant [⟨1, "checkout", "active", Option.none⟩] []
      [⟨1, 1, "A", 1/2⟩, ⟨2, 1, "B", 1/2⟩] [] 1 "u1" [] (3/10) =
      Option.some (Option.some ⟨1, 1, "A", 1/2⟩, [⟨1, 1, "u1"⟩]) ∧
    assign_user_to_variant [⟨1, "checkout", "active", Option.none⟩] []
      [⟨1, 1, "A", 1/2⟩, ⟨2, 1, "B", 1/2⟩] [⟨1, 1, "u1"⟩] 1 "u1" [] (9/10) =
      Option.some (Option.some ⟨2, 1, "B", 1/2⟩, [⟨1, 1, "u1"⟩, ⟨1, 2, "u1"⟩]) ∧
    (⟨2, 1, "B", 1/2⟩ : Variant) ≠ ⟨1, 1, "A", 1/2⟩ := by
  refine ⟨by decide!, by decide!, by decide!⟩

/-- C2 counterexample: the experiment is gated on a flag whose single rule is
country eq US and the subject has country FR.  Under the claimed semantics
(the OR eq/ne/gt/lt rule check of the flag evaluator) no rule matches, so
assign must return no variant; the code's gate ignores the operator eq
entirely and assigns the variant.  The second conjunct records that the
claimed rule check indeed matches nothing on this input. -/
theorem eligibility_gate_counterexample :
    assign_user_to_variant [⟨1, "exp", "active", Option.some 1⟩]
      [⟨1, "gate", 1, [⟨"country", "eq", "US"⟩]⟩]
      [⟨1, 1, "A", 1⟩] [] 1 "u1" [("country", "FR")] (1/2) =
      Option.some (Option.some ⟨1, 1, "A", 1⟩, [⟨1, 1, "u1"⟩]) ∧
    evaluate_rules [⟨"country", "eq", "US"⟩] [("country", "FR")] = false := by
  refine ⟨by decide!, by decide⟩

/-- The per-rule predicate that evaluate_flag_rules in fact ANDs over the rule
list: equals demands the attribute equal the rule value (a missing attribute
is None and so never equal), not_equals demands it differ, and every other
operator is a no-op. -/
def flagRulePasses (user_attributes : Attrs) (r : Rule) : Bool :=
  let user_val : Option String :=
    match ruleAttrName r with
    | Option.none => Option.none
    | Option.some f => user_attributes.lookup f
  if ruleOpName r = Option.some "equals" then decide (user_val = Option.some r.value)
  else if ruleOpName r = Option.some "not_equals" then decide (user_val ≠ Option.some r.value)
  else true

/-- Unrolling lemma: evaluate_flag_rules is the conjunction of flagRulePasses
over the rule list. -/
theorem evaluate_flag_rules_eq_all (rules : List Rule) (attrs : Attrs) :
    evaluate_flag_rules rules attrs = rules.all (flagRulePasses attrs) := by
  induction rules with
  | nil => rfl
  | cons r rest ih =>
    rw [List.all_cons, ← ih, evaluate_flag_rules]
    unfold flagRulePasses
    by_cases h1 : ruleOpName r = Option.some "equals"
    · by_cases h2 : (match ruleAttrName r with
          | Option.none => Option.none
          | Option.some f => attrs.lookup f) = Option.some r.value
      · simp [h1, h2]
      · simp [h1, h2]
    · by_cases h3 : ruleOpName r = Option.some "not_equals"
      · by_cases h2 : (match ruleAttrName r with
            | Option.none => Option.none
            | Option.some f => attrs.lookup f) = Option.some r.value
        · simp [h1, h3, h2]
        · simp [h1, h3, h2]
      · simp [h1, h3]

/-- C2 amended: the eligibility gate applies evaluate_flag_rules, which ANDs
flagRulePasses over the linked flag's rules (AND semantics over the operators
equals and not_equals only; other operators, including eq, ne, gt, lt, are
ignored; a rule with operator equals and an absent field fails the gate rather
than being skipped), and when the experiment's flag_id is a truthy id whose
flag exists and that conjunction fails, assign returns no variant and leaves
the assignments table unchanged. -/
theorem eligibility_gate_amended :
    (∀ rules user_attributes, evaluate_flag_rules rules user_attributes =
       rules.all (flagRulePasses user_attributes)) ∧
    (∀ experiments flags variants assignments experiment_id user_id user_attributes rnd
       experiment fid flag,
       experiments.find? (fun e => e.id == experiment_id) = Option.some experiment →
       experiment.flag_id = Option.some fid → fid ≠ 0 →
       flags.find? (fun f => f.id == fid) = Option.some flag →
       evaluate_flag_rules flag.rules user_attributes = false →
       assign_user_to_variant experiments flags variants assignments experiment_id user_id
         user_attributes rnd = Option.some (Option.none, assignments)) := by
  refine ⟨evaluate_flag_rules_eq_all, ?_⟩
  intro experiments flags variants assignments experiment_id user_id user_attributes rnd
    experiment fid flag hexp hfid hnz hflag hrules
  unfold assign_user_to_variant
  rw [hexp]
  simp [flagIdTruthy, hfid, hnz, hflag, hrules]

/-- Witness for C2 amended: a gate rule country equals US against a subject
with country FR blocks assignment. -/
theorem eligibility_gate_amended_witness :
    assign_user_to_variant [⟨1, "exp", "active", Option.some 1⟩]
      [⟨1, "gate", 1, [⟨"country", "equals", "US"⟩]⟩]
      [⟨1, 1, "A", 1⟩] [] 1 "u1" [("country", "FR")] (1/2) =
      Option.some (Option.none, []) :=
  eligibility_gate_amended.2 _ _ _ _ _ _ _ _ _ 1 _ rfl rfl (by decide) rfl (by decide)

/-- C3: in the flag evaluator's legacy rule check, a rule whose field is
absent from the attributes is skipped (dropping it does not change the
result), and when rules exist, no segment matched and no rule matched, the
flag evaluates to disabled regardless of its rollout; in particular a subject
without a country attribute against the single rule country eq US and rollout
one evaluates to disabled. -/
theorem legacy_rule_gating :
    (∀ rule rest (user_attrs : Attrs), user_attrs.lookup rule.field = Option.none →
       evaluate_rules (rule :: rest) user_attrs = evaluate_rules rest user_attrs) ∧
    (∀ flag flag_segments segments user_id query_params,
       find_matching_segments flag_segments segments flag.id
         (("user_id", user_id) :: query_params) = [] →
       flag.rules ≠ [] →
       evaluate_rules flag.rules (("user_id", user_id) :: query_params) = false →
       (evaluate_flag flag flag_segments segments user_id query_params).enabled = false) ∧
    (evaluate_flag ⟨1, "beta", 1, [⟨"country", "eq", "US"⟩]⟩ [] [] "u1" []).enabled = false := by
  refine ⟨?_, ?_, rfl⟩
  · intro rule rest user_attrs h
    rw [evaluate_rules, h]
  · intro flag fsegs segs uid qp hm hrules hnomatch
    simp only [evaluate_flag, hm]
    rw [if_pos ⟨hrules, hnomatch⟩]

/-- Witness for C3: the rule gate blocks a subject lacking the country
attribute on a rollout-one flag, via the general statement. -/
theorem legacy_rule_gating_witness :
    (evaluate_flag ⟨7, "beta_ui", 1, [⟨"country", "eq", "US"⟩]⟩ [] [] "u9" []).enabled = false :=
  legacy_rule_gating.2.1 ⟨7, "beta_ui", 1, [⟨"country", "eq", "US"⟩]⟩ [] [] "u9" []
    rfl (by simp) rfl

/-- The bucket value is nonnegative. -/
theorem bucketNormalized_nonneg (user_id : String) : 0 ≤ bucketNormalized user_id := by
  unfold bucketNormalized
  positivity

/-- The bucket value is below one, because the hash is reduced mod 10000. -/
theorem bucketNormalized_lt_one (user_id : String) : bucketNormalized user_id < 1 := by
  unfold bucketNormalized
  rw [div_lt_one (by norm_num)]
  exact_mod_cast Nat.mod_lt _ (by norm_num)

/-- C6: the bucket value lies in the interval from zero inclusive to one
exclusive for every subject id, and consequently, when no segment association
matches and the flag has no rules, rollout zero evaluates to disabled and
rollout one to enabled for every subject (strict comparison). -/
theorem rollout_boundaries :
    (∀ user_id : String, 0 ≤ bucketNormalized user_id ∧ bucketNormalized user_id < 1) ∧
    (∀ flag flag_segments segments user_id query_params,
       find_matching_segments flag_segments segments flag.id
         (("user_id", user_id) :: query_params) = [] →
       flag.rules = [] →
       ((flag.rollout = 0 →
          (evaluate_flag flag flag_segments segments user_id query_params).enabled = false) ∧
        (flag.rollout = 1 →
          (evaluate_flag flag flag_segments segments user_id query_params).enabled = true))) := by
  refine ⟨fun uid => ⟨bucketNormalized_nonneg uid, bucketNormalized_lt_one uid⟩, ?_⟩
  intro flag fsegs segs uid qp hm hrules
  have hcond : ¬(flag.rules ≠ [] ∧
      evaluate_rules flag.rules (("user_id", uid) :: qp) = false) := by
    simp [hrules]
  constructor
  · intro h0
    simp only [evaluate_flag, hm]
    rw [if_neg hcond, h0]
    exact decide_eq_false (not_lt.mpr (bucketNormalized_nonneg uid))
  · intro h1
    simp only [evaluate_flag, hm]
    rw [if_neg hcond, h1]
    exact decide_eq_true (bucketNormalized_lt_one uid)

/-- Witness for C6: a flag with no segments and no rules is disabled at
rollout zero and enabled at rollout one for the subject user-42. -/
theorem rollout_boundaries_witness :
    (evaluate_flag ⟨1, "off", 0, []⟩ [] [] "user-42" []).enabled = false ∧
    (evaluate_flag ⟨2, "on", 1, []⟩ [] [] "user-42" []).enabled = true :=
  ⟨(rollout_boundaries.2 ⟨1, "off", 0, []⟩ [] [] "user-42" [] rfl rfl).1 rfl,
   (rollout_boundaries.2 ⟨2, "on", 1, []⟩ [] [] "user-42" [] rfl rfl).2 rfl⟩

/-- C5: when a matching enabled segment association exists, the evaluation
outcome is the bucket compared against that association's rollout percentage
over one hundred, the exposure is tagged with the matched segment id, and the
flag's own rollout and legacy rules are never consulted: any flag record with
the same id produces the same result. -/
theorem segment_override_independence (flag flag2 : FeatureFlag)
    (flag_segments : List FlagSegment) (segments : List UserSegment)
    (user_id : String) (query_params : Attrs) (selected : FlagSegment)
    (rest : List FlagSegment)
    (hid : flag2.id = flag.id)
    (hm : find_matching_segments flag_segments segments flag.id
      (("user_id", user_id) :: query_params) = selected :: rest) :
    evaluate_flag flag2 flag_segments segments user_id query_params =
      { enabled := decide (bucketNormalized user_id < selected.rollout_percentage / 100),
        segment_id := Option.some selected.segment_id } := by
  simp only [evaluate_flag, hid, hm]

/-- Witness for C5: a universally matching segment with rollout percentage 50
determines the outcome for a flag whose own rollout is zero and whose rules
would block every subject. -/
theorem segment_override_independence_witness :
    evaluate_flag ⟨1, "f2", 0, [⟨"country", "eq", "US"⟩]⟩ [⟨1, 5, true, 50, 0⟩]
      [⟨5, "all", []⟩] "u1" [] =
      { enabled := decide (bucketNormalized "u1" < 50 / 100),
        segment_id := Option.some 5 } :=
  segment_override_independence ⟨1, "f1", 1, []⟩ ⟨1, "f2", 0, [⟨"country", "eq", "US"⟩]⟩
    _ _ "u1" [] ⟨1, 5, true, 50, 0⟩ [] rfl (by decide!)

/-- Insertion preserves the set of rows. -/
theorem mem_insertByPriority {a fs : FlagSegment} {l : List FlagSegment} :
    a ∈ insertByPriority fs l ↔ a = fs ∨ a ∈ l := by
  induction l with
  | nil => simp [insertByPriority]
  | cons g rest ih =>
    unfold insertByPriority
    by_cases h : g.priority ≤ fs.priority
    · rw [if_pos h]
      simp [List.mem_cons]
    · rw [if_neg h]
      simp only [List.mem_cons, ih]
      tauto

/-- The sort permutes the rows (as sets). -/
theorem mem_sortByPriorityDesc {a : FlagSegment} {l : List FlagSegment} :
    a ∈ sortByPriorityDesc l ↔ a ∈ l := by
  induction l with
  | nil => simp [sortByPriorityDesc]
  | cons fs rest ih =>
    simp only [sortByPriorityDesc, mem_insertByPriority, ih, List.mem_cons]

/-- Insertion into a priority-descending list keeps it priority-descending. -/
theorem pairwise_insertByPriority {fs : FlagSegment} {l : List FlagSegment}
    (h : l.Pairwise (fun a b => b.priority ≤ a.priority)) :
    (insertByPriority fs l).Pairwise (fun a b => b.priority ≤ a.priority) := by
  induction l with
  | nil => simp [insertByPriority]
  | cons g rest ih =>
    rw [List.pairwise_cons] at h
    unfold insertByPriority
    by_cases hle : g.priority ≤ fs.priority
    · rw [if_pos hle]
      refine List.pairwise_cons.mpr ⟨?_, List.pairwise_cons.mpr ⟨h.1, h.2⟩⟩
      intro x hx
      rcases List.mem_cons.mp hx with rfl | hx
      · exact hle
      · exact le_trans (h.1 x hx) hle
    · rw [if_neg hle]
      refine List.pairwise_cons.mpr ⟨?_, ih h.2⟩
      intro x hx
      rcases mem_insertByPriority.mp hx with rfl | hx
      · omega
      · exact h.1 x hx

/-- The sorted association list is priority-descending. -/
theorem pairwise_sortByPriorityDesc (l : List FlagSegment) :
    (sortByPriorityDesc l).Pairwise (fun a b => b.priority ≤ a.priority) := by
  induction l with
  | nil => simp [sortByPriorityDesc]
  | cons fs rest ih => exact pairwise_insertByPriority ih

/-- Membership in find_matching_segments: exactly the rows of the association
list that carry the flag's id, are enabled, and whose segment matches. -/
theorem mem_find_matching_segments {fs : FlagSegment} {flag_segments : List FlagSegment}
    {segments : List UserSegment} {flag_id : Nat} {user_traits : Attrs} :
    fs ∈ find_matching_segments flag_segments segments flag_id user_traits ↔
      fs ∈ flag_segments ∧ fs.flag_id = flag_id ∧ fs.enabled = true ∧
        evaluate_user_segment segments fs.segment_id user_traits = true := by
  unfold find_matching_segments get_flag_segments
  rw [List.mem_filter, mem_sortByPriorityDesc, List.mem_filter]
  simp only [Bool.and_eq_true, beq_iff_eq]
  tauto

/-- The filtered match list inherits the priority-descending order of the
sorted association list. -/
theorem find_matching_segments_pairwise (flag_segments : List FlagSegment)
    (segments : List UserSegment) (flag_id : Nat) (user_traits : Attrs) :
    (find_matching_segments flag_segments segments flag_id user_traits).Pairwise
      (fun a b => b.priority ≤ a.priority) := by
  unfold find_matching_segments get_flag_segments
  exact List.Pairwise.sublist (List.filter_sublist _) (pairwise_sortByPriorityDesc _)

/-- C4: flag evaluation considers only enabled associations of the flag whose
segment matches, and when a unique numerically-highest-priority such
association exists it determines the outcome (its rollout percentage and its
segment id), whatever the order of the association list; disabled or
non-matching associations never participate. -/
theorem targeting_priority :
    (∀ flag_segments segments flag_id (user_traits : Attrs) fs,
       fs ∈ find_matching_segments flag_segments segments flag_id user_traits →
       fs ∈ flag_segments ∧ fs.flag_id = flag_id ∧ fs.enabled = true ∧
         evaluate_user_segment segments fs.segment_id user_traits = true) ∧
    (∀ flag flag_segments segments user_id query_params a,
       a ∈ flag_segments → a.flag_id = flag.id → a.enabled = true →
       evaluate_user_segment segments a.segment_id
         (("user_id", user_id) :: query_params) = true →
       (∀ b ∈ flag_segments, b.flag_id = flag.id → b.enabled = true →
          evaluate_user_segment segments b.segment_id
            (("user_id", user_id) :: query_params) = true →
          b ≠ a → b.priority < a.priority) →
       evaluate_flag flag flag_segments segments user_id query_params =
         { enabled := decide (bucketNormalized user_id < a.rollout_percentage / 100),
           segment_id := Option.some a.segment_id }) := by
  constructor
  · intro fsegs segs fid traits fs h
    exact mem_find_matching_segments.mp h
  · intro flag fsegs segs uid qp a ha haf hae ham hmax
    have hmem : a ∈ find_matching_segments fsegs segs flag.id
        (("user_id", uid) :: qp) :=
      mem_find_matching_segments.mpr ⟨ha, haf, hae, ham⟩
    obtain ⟨hd, tl, hm⟩ : ∃ hd tl,
        find_matching_segments fsegs segs flag.id (("user_id", uid) :: qp) = hd :: tl := by
      cases hfm : find_matching_segments fsegs segs flag.id (("user_id", uid) :: qp) with
      | nil => rw [hfm] at hmem; cases hmem
      | cons hd tl => exact ⟨hd, tl, rfl⟩
    have hda : hd = a := by
      by_contra hne
      have hdm : hd ∈ find_matching_segments fsegs segs flag.id
          (("user_id", uid) :: qp) := by
        rw [hm]; exact List.mem_cons_self _ _
      obtain ⟨hd1, hd2, hd3, hd4⟩ := mem_find_matching_segments.mp hdm
      have hlt : hd.priority < a.priority := hmax hd hd1 hd2 hd3 hd4 hne
      have hp := find_matching_segments_pairwise fsegs segs flag.id (("user_id", uid) :: qp)
      rw [hm] at hp
      have hat : a ∈ tl := by
        rw [hm] at hmem
        rcases List.mem_cons.mp hmem with h | h
        · exact absurd h.symm hne
        · exact h
      have hle : a.priority ≤ hd.priority := (List.pairwise_cons.mp hp).1 a hat
      omega
    subst hda
    simp only [evaluate_flag, hm]

/-- Witness for C4: of two enabled universally-matching associations with
priorities 5 and 10, listed lower priority first, the priority-10 one (with
rollout percentage 40 and segment 5) decides the outcome. -/
theorem targeting_priority_witness :
    evaluate_flag ⟨1, "f", 0, []⟩ [⟨1, 6, true, 100, 5⟩, ⟨1, 5, true, 40, 10⟩]
      [⟨5, "hi", []⟩, ⟨6, "lo", []⟩] "u1" [] =
      { enabled := decide (bucketNormalized "u1" < 40 / 100),
        segment_id := Option.some 5 } :=
  targeting_priority.2 ⟨1, "f", 0, []⟩ _ _ "u1" [] ⟨1, 5, true, 40, 10⟩
    (by decide!) rfl rfl (by decide!) (by decide!)

end OptiFork
